import Mathlib

/-!
Verification development for the limitless-lifelog-parser content-optimization
engine.  The JavaScript sources `src/services/TokenOptimizer.js` and
`src/utils/DateUtils.js` are shallowly embedded below: strings are Lean
`String`s (processed at the `List Char` level, which matches the ASCII inputs
the program handles), JavaScript numbers used as integer token counters are
`Nat`, fractional budget thresholds such as `0.85 * maxTokens` are modelled in
exact integer arithmetic (`85 * maxTokens` against `100 * total`), and the
environment-dependent pieces of the JavaScript runtime (the js-tiktoken
encoder, locale-dependent `Date` rendering and `Date` parsing) are abstracted
into a `JsEnv` record of functions that every theorem quantifies over.
-/

namespace Lifelog

/-- Character class of the JavaScript regex `\s` restricted to the ASCII
whitespace characters that can occur in the program's inputs. -/
def isJsWs (c : Char) : Bool :=
  c = ' ' || c = '\t' || c = '\n' || c = '\r'

/-- Sentence terminators of the regexes `[.!?]+` and `(?<=[.!?])\s+`. -/
def isTerm (c : Char) : Bool :=
  c = '.' || c = '!' || c = '?'

/-- Truthiness of a possibly-undefined JavaScript boolean
(`undefined` is falsy). -/
def truthyBool : Option Bool → Bool
  | some b => b
  | none => false

/-- Truthiness of a possibly-undefined JavaScript string
(`undefined` and the empty string are falsy). -/
def truthyStr : Option String → Bool
  | some s => s ≠ ""
  | none => false

/-- Split a character list at every occurrence of the character `sep`,
like JavaScript `String.prototype.split` with a single-character separator:
consecutive separators produce empty parts. -/
def splitCh (sep : Char) : List Char → List (List Char)
  | [] => [[]]
  | c :: rest =>
    let parts := splitCh sep rest
    if c = sep then [] :: parts
    else
      match parts with
      | [] => [[c]]
      | p :: ps => (c :: p) :: ps

/-- Join character lists with the character `sep`, inverse of `splitCh`
on separator-free parts. -/
def joinCh (sep : Char) : List (List Char) → List Char
  | [] => []
  | [p] => p
  | p :: ps => p ++ sep :: joinCh sep ps

/-- Decide whether `p` is a prefix of `l`. -/
def hasPrefixChars : List Char → List Char → Bool
  | [], _ => true
  | _ :: _, [] => false
  | p :: ps, c :: cs => p = c && hasPrefixChars ps cs

/-- JavaScript `String.prototype.includes`: `pat` occurs as a contiguous
substring of `l` (always true for the empty pattern). -/
def subOccurs (pat : List Char) : List Char → Bool
  | [] => hasPrefixChars pat []
  | c :: rest => hasPrefixChars pat (c :: rest) || subOccurs pat rest

/-- JavaScript `String.prototype.includes` on `String`s. -/
def strIncludes (s pat : String) : Bool :=
  subOccurs pat.data s.data

/-- JavaScript `String.prototype.trim` on character lists. -/
def trimL (l : List Char) : List Char :=
  ((l.dropWhile isJsWs).reverse.dropWhile isJsWs).reverse

/-- JavaScript `String.prototype.trim`. -/
def jsTrim (s : String) : String :=
  ⟨trimL s.data⟩

/-- JavaScript `String.prototype.toLowerCase` (ASCII). -/
def jsToLower (s : String) : String :=
  ⟨s.data.map Char.toLower⟩

/-- Stable insertion of `x` into a sorted list: `x` is placed before the
first element that does not strictly precede it. -/
def insBy (lt : α → α → Bool) (x : α) : List α → List α
  | [] => [x]
  | y :: ys => if lt y x then y :: insBy lt x ys else x :: y :: ys

/-- Stable sort with strict precedence `lt`, modelling JavaScript
`Array.prototype.sort` (stable since ES2019) under a comparator that induces
the total preorder whose strict part is `lt`. -/
def stableSortBy (lt : α → α → Bool) : List α → List α
  | [] => []
  | x :: xs => insBy lt x (stableSortBy lt xs)

/-- Append `x` to `l` unless it is already present: models insertion into a
JavaScript `Set` (which preserves first-insertion order). -/
def insertUnique (l : List String) (x : String) : List String :=
  if x ∈ l then l else l ++ [x]

/-- Dropping a prefix cannot lengthen a list (used for termination of the
regex scanners below). -/
theorem dropWhileLenLe (p : α → Bool) : ∀ l : List α, (l.dropWhile p).length ≤ l.length
  | [] => Nat.le_refl _
  | a :: l => by
    rw [List.dropWhile_cons]
    split
    · exact Nat.le_trans (dropWhileLenLe p l) (Nat.le_succ _)
    · exact Nat.le_refl _

/-- Number of newline characters in a list. -/
def countNl (l : List Char) : Nat :=
  (l.filter (· == '\n')).length

/-- Suffix of `l` strictly after its last newline (all of `l` when it has
no newline). -/
def afterLastNl (l : List Char) : List Char :=
  (l.reverse.takeWhile (· != '\n')).reverse

/-- JavaScript `content.replace(/\n\s*\n\s*\n/g, '\n\n')` (TokenOptimizer.js
line 203).  A match starts at a `'\n'` whose following maximal whitespace run
contains at least two further newlines; greedy backtracking makes the match
extend through the last newline of that run, and it is replaced by two
newlines.  Scanning resumes after the match. -/
def collapseNlFuel : Nat → List Char → List Char
  | _, [] => []
  | 0, l => l
  | fuel + 1, c :: rest =>
    if c = '\n' ∧ 2 ≤ countNl (rest.takeWhile isJsWs) then
      '\n' :: '\n' :: (afterLastNl (rest.takeWhile isJsWs) ++ collapseNlFuel fuel (rest.dropWhile isJsWs))
    else c :: collapseNlFuel fuel rest

/-- Scanner entry point with enough fuel for the whole input (each step
consumes at least one character, so `l.length` steps always suffice). -/
def collapseNlAux (l : List Char) : List Char :=
  collapseNlFuel l.length l

/-- Number of characters (including the closing `"]:"`) consumed by the
minimal regex fragment `.*?\]:` starting right after a `'['`, or `none` when
no match is possible before the end of the line (`.` does not match
newlines). -/
def findSpkColon : List Char → Option Nat
  | [] => none
  | c :: rest =>
    if c = ']' ∧ rest.head? = some ':' then some 2
    else if c = '\n' then none
    else (findSpkColon rest).map (· + 1)

/-- Consumed count of `findSpkColon` never exceeds the scanned length. -/
theorem findSpkColon_le : ∀ (l : List Char) (n : Nat), findSpkColon l = some n → n ≤ l.length
  | [], n, h => by simp [findSpkColon] at h
  | c :: rest, n, h => by
    rw [findSpkColon] at h
    split at h
    · rename_i hc
      obtain ⟨-, hh⟩ := hc
      cases rest with
      | nil => simp at hh
      | cons d rest' =>
        injection h with h
        subst h
        simp only [List.length_cons]
        omega
    · split at h
      · cases h
      · simp only [Option.map_eq_some'] at h
        obtain ⟨m, hm, rfl⟩ := h
        have := findSpkColon_le rest m hm
        simp only [List.length_cons]
        omega

end Lifelog

namespace Lifelog.TokenOptimizer

open Lifelog

/-- Environment abstracting the JavaScript runtime services used by
`TokenOptimizer`: the js-tiktoken encoder (`encode s = none` models a thrown
exception), the locale-dependent `Date#toLocaleString` and `Date#toDateString`
renderings of a timestamp string, and `Date` parsing to epoch milliseconds. -/
structure JsEnv where
  encode : String → Option (List Nat)
  toLocaleString : String → String
  toDateString : String → String
  dateMs : String → ℚ

/-- Argument of `countTokens`: a JavaScript string, or any non-string value
(`null`, `undefined`, numbers, objects, …). -/
inductive JsInput where
  | str (s : String)
  | nonstr
deriving DecidableEq

/-- JavaScript `processed.replace(/\[.*?\]:\s*/g, '')` (TokenOptimizer.js
line 207): at each `'['` the minimal `.*?\]:` match is sought on the current
line; on success the match together with the greedy trailing `\s*` run is
deleted and scanning resumes after it. -/
def stripSpkFuel : Nat → List Char → List Char
  | _, [] => []
  | 0, l => l
  | fuel + 1, c :: rest =>
    if c = '[' ∧ (findSpkColon rest).isSome then
      stripSpkFuel fuel ((rest.drop (findSpkColon rest).get!).dropWhile isJsWs)
    else c :: stripSpkFuel fuel rest

/-- Scanner entry point with enough fuel for the whole input. -/
def stripSpkAux (l : List Char) : List Char :=
  stripSpkFuel l.length l

/-- JavaScript `processed.replace(/^.{1,15}$/gm, '')` (TokenOptimizer.js
line 211): every line of raw length 1 to 15 characters is replaced by the
empty line (`.` does not match newlines, so a "line" is a maximal
newline-free run; the newlines themselves survive). -/
def removeShortLines (l : List Char) : List Char :=
  joinCh '\n' ((splitCh '\n' l).map (fun line =>
    if 1 ≤ line.length ∧ line.length ≤ 15 then [] else line))

/-- Embedding of `TokenOptimizer#lightSummarize` (TokenOptimizer.js lines
199-214).  `includeSpeakers` is `none` when the JavaScript caller passed
`undefined`; both `none` and `some false` are falsy, so speaker prefixes are
stripped in those cases. -/
def lightSummarize (content : String) (includeSpeakers : Option Bool) : String :=
  let p1 := collapseNlAux content.data
  let p2 := if truthyBool includeSpeakers then p1 else stripSpkAux p1
  ⟨trimL (removeShortLines p2)⟩

/-- JavaScript `processed.split(/[.!?]+/)`: maximal runs of sentence
terminators act as a single separator. -/
def splitTermFuel : Nat → List Char → List Char → List (List Char)
  | _, [], acc => [acc.reverse]
  | 0, l, acc => [acc.reverse ++ l]
  | fuel + 1, c :: rest, acc =>
    if isTerm c then acc.reverse :: splitTermFuel fuel (rest.dropWhile isTerm) []
    else splitTermFuel fuel rest (c :: acc)

/-- Scanner entry point with enough fuel for the whole input. -/
def splitTermAux (l acc : List Char) : List (List Char) :=
  splitTermFuel l.length l acc

/-- Keyword list of `moderateSummarize` (TokenOptimizer.js lines 229-233). -/
def importantKeywords : List String :=
  ["decided", "important", "meeting", "project", "deadline", "goal",
   "problem", "solution", "action", "next", "follow", "complete",
   "urgent", "priority", "schedule", "appointment", "reminder"]

/-- Embedding of `TokenOptimizer#moderateSummarize` (TokenOptimizer.js lines
222-248).  `Math.ceil(sentences.length * 0.7)` and the comparison against
`sentences.length * 0.3` are modelled in exact arithmetic. -/
def moderateSummarize (content : String) (includeSpeakers : Option Bool) : String :=
  let processed := lightSummarize content includeSpeakers
  let sentences := ((splitTermAux processed.data []).map (fun l => (⟨l⟩ : String))).filter
    (fun s => 20 < (jsTrim s).length)
  let keySentences := sentences.filter (fun s =>
    importantKeywords.any (fun k => strIncludes (jsToLower s) k) || 50 < s.length)
  if 10 * keySentences.length < 3 * sentences.length then
    let sorted := stableSortBy (fun a b => decide (b.length < a.length)) sentences
    String.intercalate ". " (sorted.take ((7 * sentences.length + 9) / 10)) ++ "."
  else
    String.intercalate ". " keySentences ++ "."

/-- Keyword list of `aggressiveSummarize` (TokenOptimizer.js lines
263-266). -/
def highPriorityKeywords : List String :=
  ["decided", "concluded", "agreed", "action", "next steps", "deadline",
   "important", "urgent", "priority", "meeting", "appointment", "schedule"]

/-- Embedding of `TokenOptimizer#aggressiveSummarize` (TokenOptimizer.js
lines 256-280). -/
def aggressiveSummarize (content : String) (includeSpeakers : Option Bool) : String :=
  let processed := moderateSummarize content includeSpeakers
  let sentences := ((splitTermAux processed.data []).map (fun l => (⟨l⟩ : String))).filter
    (fun s => 30 < (jsTrim s).length)
  let criticalSentences := sentences.filter (fun s =>
    highPriorityKeywords.any (fun k => strIncludes (jsToLower s) k))
  if criticalSentences.length = 0 then
    let sorted := stableSortBy (fun a b => decide (b.length < a.length)) sentences
    String.intercalate ". " (sorted.take (min 3 sentences.length)) ++ "."
  else
    String.intercalate ". " criticalSentences ++ "."

/-- Second argument of `processContentBySummarizeLevel`: the JavaScript
call site at TokenOptimizer.js line 141 passes the boolean `includeSpeakers`
here, so the value can be a string, a boolean, or `undefined`. -/
inductive JsArg where
  | str (s : String)
  | bool (b : Bool)
  | undef
deriving DecidableEq

/-- Embedding of `TokenOptimizer#processContentBySummarizeLevel`
(TokenOptimizer.js lines 179-191).  The `switch` compares `level` against
the strings `'high'` and `'medium'`; any other value — including the boolean
actually supplied by `extractAndCleanContent` — falls through to
`lightSummarize`. -/
def processContentBySummarizeLevel (content : String) (level : JsArg)
    (includeSpeakers : Option Bool) : String :=
  if content = "" then ""
  else
    match level with
    | .str "high" => aggressiveSummarize content includeSpeakers
    | .str "medium" => moderateSummarize content includeSpeakers
    | _ => lightSummarize content includeSpeakers

/-- Embedding of `TokenOptimizer#countTokens` (TokenOptimizer.js lines
31-39).  Non-strings and the empty string (both falsy) yield 0; otherwise the
encoder's token-list length is returned, and if the encoder throws the
fallback estimate `Math.ceil(text.length / 4)` is used.  The function is
total: no input raises. -/
def countTokens (env : JsEnv) : JsInput → Nat
  | .nonstr => 0
  | .str s =>
    if s = "" then 0
    else
      match env.encode s with
      | some toks => toks.length
      | none => (s.length + 3) / 4

/-- Content node of a lifelog entry: an optional speaker label and an
optional (possibly empty, and then still truthy) list of children. -/
inductive ContentNode where
  | mk (speakerName : Option String) (children : Option (List ContentNode))

mutual

/-- Speaker collection for one node, as done by
`TokenOptimizer#extractSpeakersFromContent` (TokenOptimizer.js lines
760-771): a truthy speaker label is added to the set, then the children are
visited in order. -/
def spkNode (n : ContentNode) (acc : List String) : List String :=
  match n with
  | .mk name children =>
    let acc1 := match name with
      | some s => if s = "" then acc else insertUnique acc s
      | none => acc
    match children with
    | some cs => spkList cs acc1
    | none => acc1

/-- Speaker collection over a sibling list, left to right. -/
def spkList (ns : List ContentNode) (acc : List String) : List String :=
  match ns with
  | [] => acc
  | n :: rest => spkList rest (spkNode n acc)

end

/-- Lifelog entry as consumed by `TokenOptimizer` (the fields the code
reads; absent fields model `undefined`). -/
structure LifelogEntry where
  title : Option String := none
  markdown : Option String := none
  content : Option String := none
  startTime : Option String := none
  endTime : Option String := none
  isStarred : Bool := false
  contents : Option (List ContentNode) := none

/-- Metadata record produced by `extractAndCleanContent`
(TokenOptimizer.js lines 114-121). -/
structure Metadata where
  totalEntries : Nat
  dateRange : String
  speakers : List String
  topics : List String
  starredCount : Nat
  totalDuration : ℚ
deriving DecidableEq

/-- Embedding of `TokenOptimizer#getDateRange` (TokenOptimizer.js lines
740-753): truthy start times are rendered with `Date#toDateString`, sorted
lexicographically (the JavaScript default sort), and the first and last are
reported. -/
def getDateRange (env : JsEnv) (lifelogs : List LifelogEntry) : String :=
  if lifelogs.isEmpty then "No data"
  else
    let dates := stableSortBy (fun a b => decide (a < b))
      ((lifelogs.filterMap (fun l => match l.startTime with
        | some s => if s = "" then none else some s
        | none => none)).map env.toDateString)
    if dates.isEmpty then "No dates"
    else if dates.length = 1 then dates.headD ""
    else dates.headD "" ++ " - " ++ dates.getLastD ""

/-- Result of `extractAndCleanContent`. -/
structure ExtractedContent where
  fullText : String
  metadata : Metadata

/-- Mutable state threaded through the entry loop of
`extractAndCleanContent`. -/
structure ExtractState where
  fullText : String
  speakers : List String
  topics : List String
  starredCount : Nat
  totalDuration : ℚ

/-- Body of the per-entry loop of `TokenOptimizer#extractAndCleanContent`
(TokenOptimizer.js lines 124-161).  Note the call at line 141: the source
invokes `processContentBySummarizeLevel(lifelog.markdown, includeSpeakers)`
with only two arguments, so the boolean lands in the `level` parameter and
the function's own `includeSpeakers` parameter is `undefined`. -/
def extractStep (env : JsEnv) (includeTimestamps includeSpeakers : Bool)
    (st : ExtractState) (l : LifelogEntry) : ExtractState :=
  let e1 := if includeTimestamps ∧ truthyStr l.startTime
            then "[" ++ env.toLocaleString (l.startTime.getD "") ++ "] " else ""
  let e2 := match l.title with
    | some t => if t ≠ "" then e1 ++ "## " ++ t ++ "\n\n" else e1
    | none => e1
  let topics' := match l.title with
    | some t => if t ≠ "" then st.topics ++ [t] else st.topics
    | none => st.topics
  let e3 := match l.markdown with
    | some m =>
      if m ≠ ""
      then e2 ++ processContentBySummarizeLevel m (.bool includeSpeakers) none ++ "\n\n"
      else e2
    | none => e2
  let speakers' := match l.contents with
    | some cs => spkList cs st.speakers
    | none => st.speakers
  let starred' := if l.isStarred then st.starredCount + 1 else st.starredCount
  let dur' := if truthyStr l.startTime ∧ truthyStr l.endTime
              then st.totalDuration
                   + (env.dateMs (l.endTime.getD "") - env.dateMs (l.startTime.getD "")) / 60000
              else st.totalDuration
  { fullText := st.fullText ++ e3, speakers := speakers', topics := topics',
    starredCount := starred', totalDuration := dur' }

/-- Embedding of `TokenOptimizer#extractAndCleanContent` (TokenOptimizer.js
lines 107-170). -/
def extractAndCleanContent (env : JsEnv) (lifelogs : List LifelogEntry)
    (includeTimestamps includeSpeakers : Bool) : ExtractedContent :=
  let st := lifelogs.foldl (extractStep env includeTimestamps includeSpeakers) ⟨"", [], [], 0, 0⟩
  { fullText := jsTrim st.fullText,
    metadata :=
      { totalEntries := lifelogs.length, dateRange := getDateRange env lifelogs,
        speakers := st.speakers, topics := st.topics,
        starredCount := st.starredCount, totalDuration := st.totalDuration } }

/-- Chunk record (TokenOptimizer.js lines 308-313 and 360-366); `topics` is
absent (`none`) for fixed and `semantic-split` chunks. -/
structure Chunk where
  index : Nat
  content : String
  tokenCount : Nat
  type : String
  topics : Option (List String) := none
deriving DecidableEq

/-- Result of a chunking strategy. -/
structure ChunkResult where
  chunks : List Chunk
  totalTokens : Nat
deriving DecidableEq

/-- JavaScript `chunks.reduce((sum, chunk) => sum + chunk.tokenCount, 0)`. -/
def sumTokens (cs : List Chunk) : Nat :=
  (cs.map (·.tokenCount)).foldl (· + ·) 0

/-- JavaScript `fullText.split(/(?<=[.!?])\s+/)` (TokenOptimizer.js line
295): a maximal whitespace run preceded by a sentence terminator separates
sentences, the terminator staying with the preceding part. -/
def splitSentWsFuel : Nat → List Char → List Char → List (List Char)
  | _, [], acc => [acc.reverse]
  | 0, l, acc => [acc.reverse ++ l]
  | fuel + 1, c :: rest, acc =>
    if isTerm c ∧ (rest.head?.map isJsWs).getD false then
      (c :: acc).reverse :: splitSentWsFuel fuel (rest.dropWhile isJsWs) []
    else splitSentWsFuel fuel rest (c :: acc)

/-- Scanner entry point with enough fuel for the whole input. -/
def splitSentWsAux (l acc : List Char) : List (List Char) :=
  splitSentWsFuel l.length l acc

/-- State of the greedy packing loops of both chunking strategies. -/
structure PackSt where
  chunks : List Chunk
  current : String
  idx : Nat

/-- Body of the sentence loop of `TokenOptimizer#fixedChunking`
(TokenOptimizer.js lines 299-317). -/
def fixedStep (env : JsEnv) (chunkSize : Nat) (s : PackSt) (sentence : String) : PackSt :=
  let testChunk := s.current ++ (if s.current ≠ "" then " " else "") ++ sentence
  if countTokens env (.str testChunk) ≤ chunkSize then
    { s with current := testChunk }
  else if s.current ≠ "" then
    { chunks := s.chunks ++ [{ index := s.idx, content := jsTrim s.current,
                               tokenCount := countTokens env (.str s.current), type := "fixed" }],
      current := sentence, idx := s.idx + 1 }
  else { s with current := sentence }

/-- Final flush shared by both chunking loops (TokenOptimizer.js lines
320-327 and 387-395): a non-empty residual chunk is appended with the
current index, which is not incremented. -/
def finishChunks (st : PackSt) (mk : PackSt → Chunk) : List Chunk :=
  if st.current ≠ "" then st.chunks ++ [mk st] else st.chunks

/-- Embedding of `TokenOptimizer#fixedChunking` (TokenOptimizer.js lines
289-332); `Math.floor(maxTokens * 0.9)` is the exact `90 * maxTokens / 100`. -/
def fixedChunking (env : JsEnv) (fullText : String) (maxTokens : Nat) : ChunkResult :=
  let chunkSize := 90 * maxTokens / 100
  let sentences := (splitSentWsAux fullText.data []).map (fun l => (⟨l⟩ : String))
  let st := sentences.foldl (fixedStep env chunkSize) ⟨[], "", 0⟩
  let chunks := finishChunks st (fun s =>
    { index := s.idx, content := jsTrim s.current,
      tokenCount := countTokens env (.str s.current), type := "fixed" })
  ⟨chunks, sumTokens chunks⟩

/-- JavaScript `fullText.split(/(?=##\s)/)` (TokenOptimizer.js line 346):
zero-width boundaries before every `"##"` followed by whitespace; no empty
leading part is produced. -/
def splitSectionsFuel : Nat → List Char → List Char → List (List Char)
  | _, [], acc => [acc.reverse]
  | 0, l, acc => [acc.reverse ++ l]
  | fuel + 1, '#' :: '#' :: d :: rest, acc =>
    if isJsWs d ∧ acc ≠ [] then acc.reverse :: splitSectionsFuel fuel rest [d, '#', '#']
    else splitSectionsFuel fuel ('#' :: d :: rest) ('#' :: acc)
  | fuel + 1, c :: rest, acc => splitSectionsFuel fuel rest (c :: acc)

/-- Scanner entry point with enough fuel for the whole input. -/
def splitSectionsAux (l acc : List Char) : List (List Char) :=
  splitSectionsFuel l.length l acc

/-- Embedding of `TokenOptimizer#extractTopicsFromText` (TokenOptimizer.js
lines 778-788): every line matching `^##\s+(.+)$` contributes its trimmed
group.  When everything after the mandatory whitespace is empty the greedy
`\s+` backtracks, so a line of `"##"` plus two or more whitespace characters
still matches, with a group that trims to the empty string. -/
def extractTopicsFromText (text : String) : List String :=
  (splitCh '\n' text.data).filterMap (fun line =>
    match line with
    | '#' :: '#' :: rest =>
      let ws := rest.takeWhile isJsWs
      let body := rest.dropWhile isJsWs
      if ws.length = 0 then none
      else if body ≠ [] then some (⟨trimL body⟩ : String)
      else if 2 ≤ ws.length then some ""
      else none
    | _ => none)

/-- Re-indexing push of a sub-chunk produced by the recursive fixed pass
inside `semanticChunking` (TokenOptimizer.js lines 372-378). -/
def subStep (s : PackSt) (c : Chunk) : PackSt :=
  { chunks := s.chunks ++ [{ c with index := s.idx, type := "semantic-split" }],
    current := s.current, idx := s.idx + 1 }

/-- Body of the section loop of `TokenOptimizer#semanticChunking`
(TokenOptimizer.js lines 351-384). -/
def semStep (env : JsEnv) (chunkSize maxTokens : Nat) (s : PackSt) (sec : String) : PackSt :=
  let testChunk := s.current ++ (if s.current ≠ "" then "\n\n" else "") ++ sec
  if countTokens env (.str testChunk) ≤ chunkSize then
    { s with current := testChunk }
  else
    let s1 := if s.current ≠ "" then
        { chunks := s.chunks ++ [{ index := s.idx, content := jsTrim s.current,
                                   tokenCount := countTokens env (.str s.current),
                                   type := "semantic",
                                   topics := some (extractTopicsFromText s.current) }],
          current := s.current, idx := s.idx + 1 }
      else s
    if chunkSize < countTokens env (.str sec) then
      let sub := fixedChunking env sec maxTokens
      let s2 := sub.chunks.foldl subStep s1
      { s2 with current := "" }
    else { s1 with current := sec }

/-- Embedding of `TokenOptimizer#semanticChunking` (TokenOptimizer.js lines
341-400). -/
def semanticChunking (env : JsEnv) (fullText : String) (maxTokens : Nat) : ChunkResult :=
  let chunkSize := 90 * maxTokens / 100
  let sections := (splitSectionsAux fullText.data []).map (fun l => (⟨l⟩ : String))
  let st := sections.foldl (semStep env chunkSize maxTokens) ⟨[], "", 0⟩
  let chunks := finishChunks st (fun s =>
    { index := s.idx, content := jsTrim s.current,
      tokenCount := countTokens env (.str s.current), type := "semantic",
      topics := some (extractTopicsFromText s.current) })
  ⟨chunks, sumTokens chunks⟩

/-- Embedding of `TokenOptimizer#temporalChunking` (TokenOptimizer.js lines
409-413): a literal alias of the semantic strategy. -/
def temporalChunking (env : JsEnv) (fullText : String) (maxTokens : Nat) : ChunkResult :=
  semanticChunking env fullText maxTokens

/-- Options of `optimizeForChatGPT` with the source defaults
(TokenOptimizer.js lines 48-53).  `summarizeLevel` and `prioritizeTopics`
belong to the recognized configuration surface but are never destructured by
`optimizeForChatGPT`. -/
structure OptimizeOptions where
  maxTokens : Nat := 8000
  includeTimestamps : Bool := true
  includeSpeakers : Bool := true
  chunkStrategy : String := "semantic"
  summarizeLevel : String := "low"
  prioritizeTopics : Bool := true

/-- Result of `optimizeForChatGPT`: the `complete` branch sets `tokenCount`,
`content` and a `null` `chunks`; the chunked branch sets `originalTokens`,
`optimizedTokens`, `compressionRatio` and `chunks`. -/
structure OptimizeResult where
  strategy : String
  metadata : Metadata
  tokenCount : Option Nat := none
  content : Option String := none
  chunks : Option (List Chunk) := none
  originalTokens : Option Nat := none
  optimizedTokens : Option Nat := none
  compressionRatio : Option ℚ := none
deriving DecidableEq

/-- Embedding of `TokenOptimizer#optimizeForChatGPT` (TokenOptimizer.js
lines 47-99). -/
def optimizeForChatGPT (env : JsEnv) (lifelogs : List LifelogEntry)
    (options : OptimizeOptions) : OptimizeResult :=
  let cleanedContent :=
    extractAndCleanContent env lifelogs options.includeTimestamps options.includeSpeakers
  let totalTokens := countTokens env (.str cleanedContent.fullText)
  if totalTokens ≤ options.maxTokens then
    { strategy := "complete", tokenCount := some totalTokens,
      content := some cleanedContent.fullText, metadata := cleanedContent.metadata,
      chunks := none }
  else
    let optimizedResult :=
      match options.chunkStrategy with
      | "semantic" => semanticChunking env cleanedContent.fullText options.maxTokens
      | "temporal" => temporalChunking env cleanedContent.fullText options.maxTokens
      | _ => fixedChunking env cleanedContent.fullText options.maxTokens
    { strategy := options.chunkStrategy,
      originalTokens := some totalTokens,
      optimizedTokens := some optimizedResult.totalTokens,
      compressionRatio := some (((totalTokens : ℚ) - optimizedResult.totalTokens) / totalTokens),
      chunks := some optimizedResult.chunks,
      metadata := cleanedContent.metadata }

/-- Embedding of `TokenOptimizer#extractTextContent` (TokenOptimizer.js
lines 509-528): truthy title, markdown and content fields are concatenated
with trailing spaces, then trimmed. -/
def extractTextContent (l : LifelogEntry) : String :=
  let addIf : Option String → String := fun o =>
    match o with
    | some s => if s ≠ "" then s ++ " " else ""
    | none => ""
  jsTrim (addIf l.title ++ addIf l.markdown ++ addIf l.content)

/-- High-importance keyword list (TokenOptimizer.js lines 581-585). -/
def highImportanceKeywords : List String :=
  ["meeting", "call", "interview", "presentation", "decision", "important",
   "urgent", "deadline", "project", "client", "boss", "manager", "team",
   "problem", "issue", "solution", "plan", "strategy", "goal", "target"]

/-- Medium-importance keyword list (TokenOptimizer.js lines 588-591). -/
def mediumImportanceKeywords : List String :=
  ["discussion", "conversation", "email", "message", "update", "review",
   "feedback", "idea", "suggestion", "question", "answer", "explain"]

/-- Embedding of `TokenOptimizer#containsKeywords` (TokenOptimizer.js lines
664-666): substring containment of any keyword. -/
def containsKeywords (content : String) (keywords : List String) : Bool :=
  keywords.any (fun k => strIncludes content k)

/-- Topic table of `TokenOptimizer#extractTopics` (TokenOptimizer.js lines
638-646), in object-literal order. -/
def topicKeywordTable : List (String × List String) :=
  [("work", ["work", "job", "office", "meeting", "project", "client", "business"]),
   ("personal", ["family", "friend", "personal", "home", "weekend"]),
   ("health", ["health", "doctor", "exercise", "gym", "medical", "wellness"]),
   ("technology", ["computer", "software", "app", "website", "tech", "digital"]),
   ("travel", ["travel", "trip", "flight", "hotel", "vacation", "visit"]),
   ("food", ["food", "restaurant", "eat", "lunch", "dinner", "cook"]),
   ("entertainment", ["movie", "music", "game", "show", "entertainment", "fun"])]

/-- Embedding of `TokenOptimizer#extractTopics` (TokenOptimizer.js lines
637-656). -/
def extractTopics (content : String) : List String :=
  topicKeywordTable.filterMap (fun p =>
    if containsKeywords content p.2 then some p.1 else none)

/-- Enriched lifelog `{ ...lifelog, topics, priority, wordCount }`
(TokenOptimizer.js line 608). -/
structure EnrichedLifelog where
  log : LifelogEntry
  topics : List String
  priority : String
  wordCount : Nat

/-- Per-entry analysis of `groupByTopicsAndImportance` (TokenOptimizer.js
lines 594-608): lower-cased flattened text, single-space word count, and the
high/medium/low classification. -/
def classifyEntry (l : LifelogEntry) : EnrichedLifelog :=
  let content := jsToLower (extractTextContent l)
  let wordCount := (splitCh ' ' content.data).length
  let priority :=
    if 50 < wordCount ∨ containsKeywords content highImportanceKeywords then "high"
    else if 20 < wordCount ∨ containsKeywords content mediumImportanceKeywords then "medium"
    else "low"
  { log := l, topics := extractTopics content, priority := priority, wordCount := wordCount }

/-- Priority bands produced by `groupByTopicsAndImportance`. -/
structure GroupedContent where
  highPriority : List EnrichedLifelog
  mediumPriority : List EnrichedLifelog
  lowPriority : List EnrichedLifelog

/-- Embedding of the band sort of `groupByTopicsAndImportance`
(TokenOptimizer.js lines 622-629).  The source comparator is
`(a, b) => new Date(a.timestamp) - new Date(b.timestamp)`, but enriched
lifelog entries carry no `timestamp` property (their time field is
`startTime`), so both operands are `new Date(undefined)`, i.e. Invalid Date;
the subtraction is `NaN`, which `Array.prototype.sort` coerces to `+0`, and
the ES2019-stable sort therefore leaves the array in its original order. -/
def sortByTime (l : List EnrichedLifelog) : List EnrichedLifelog := l

/-- Body of the classification loop of `groupByTopicsAndImportance`
(TokenOptimizer.js lines 593-620). -/
def groupStep (g : GroupedContent) (l : LifelogEntry) : GroupedContent :=
  let e := classifyEntry l
  if e.priority = "high" then { g with highPriority := g.highPriority ++ [e] }
  else if e.priority = "medium" then { g with mediumPriority := g.mediumPriority ++ [e] }
  else { g with lowPriority := g.lowPriority ++ [e] }

/-- Embedding of `TokenOptimizer#groupByTopicsAndImportance`
(TokenOptimizer.js lines 575-630). -/
def groupByTopicsAndImportance (lifelogs : List LifelogEntry) : GroupedContent :=
  let g := lifelogs.foldl groupStep ⟨[], [], []⟩
  ⟨sortByTime g.highPriority, sortByTime g.mediumPriority, sortByTime g.lowPriority⟩

/-- Embedding of `TokenOptimizer#countProcessedEntries` (TokenOptimizer.js
lines 674-679): the acknowledged estimate
`high + floor(0.8 * medium) + floor(0.3 * low)` over the full band sizes. -/
def countProcessedEntries (g : GroupedContent) : Nat :=
  g.highPriority.length + 8 * g.mediumPriority.length / 10 + 3 * g.lowPriority.length / 10

/-- Options of `formatLifelogEntry` with the source defaults
(TokenOptimizer.js line 537). -/
structure FormatOptions where
  includeTimestamps : Bool := false
  includeSpeakers : Bool := false
  summarize : Bool := false

/-- Embedding of `TokenOptimizer#formatLifelogEntry` (TokenOptimizer.js
lines 536-560).  Here `lightSummarize` is called with both of its declared
arguments, so `includeSpeakers` reaches it as an actual boolean. -/
def formatLifelogEntry (env : JsEnv) (l : LifelogEntry) (opts : FormatOptions) : String :=
  let e1 := if opts.includeTimestamps ∧ truthyStr l.startTime
            then "[" ++ env.toLocaleString (l.startTime.getD "") ++ "] " else ""
  let e2 := match l.title with
    | some t => if t ≠ "" then e1 ++ "## " ++ t ++ "\n\n" else e1
    | none => e1
  let e3 := match l.markdown with
    | some m =>
      if m ≠ ""
      then e2 ++ (if opts.summarize then lightSummarize m (some opts.includeSpeakers) else m) ++ "\n\n"
      else e2
    | none => e2
  jsTrim e3

/-- Options of `createConsolidatedExport` with the source defaults
(TokenOptimizer.js lines 422-427). -/
structure ExportOptions where
  maxTokens : Nat := 120000
  includeTimestamps : Bool := true
  includeSpeakers : Bool := true
  prioritizeTopics : Bool := true

/-- Mutable state of the consolidation loops: accumulated document, running
token total, and collected topics. -/
structure ConsSt where
  content : String
  totalTokens : Nat
  topics : List String

/-- Body of one consolidation loop iteration (TokenOptimizer.js lines
444-453, 459-468 and 474-482): the entry is appended only while the running
total stays within `pct`% of `maxTokens` (exact arithmetic for the
JavaScript `totalTokens + itemTokens <= maxTokens * pct/100`).  The low band
does not collect topics. -/
def consStep (env : JsEnv) (maxTokens pct : Nat) (fmtOpts : FormatOptions)
    (collectTopics : Bool) (s : ConsSt) (item : EnrichedLifelog) : ConsSt :=
  let itemContent := formatLifelogEntry env item.log fmtOpts
  let itemTokens := countTokens env (.str itemContent)
  if 100 * (s.totalTokens + itemTokens) ≤ pct * maxTokens then
    { content := s.content ++ itemContent ++ "\n\n",
      totalTokens := s.totalTokens + itemTokens,
      topics := if collectTopics then s.topics ++ item.topics else s.topics }
  else s

/-- Sections of `createConsolidatedExport` before the optional footer
(TokenOptimizer.js lines 437-483): the high band under the 85% ceiling, then
the medium band under 95% (entered only while the total is strictly below
95%), then the light-summarized low band under 98%. -/
def consolidatedBody (env : JsEnv) (g : GroupedContent) (opts : ExportOptions) : ConsSt :=
  let st0 : ConsSt := ⟨"", 0, []⟩
  let fmt : FormatOptions := ⟨opts.includeTimestamps, opts.includeSpeakers, false⟩
  let fmtSum : FormatOptions := ⟨opts.includeTimestamps, opts.includeSpeakers, true⟩
  let st1 := if 0 < g.highPriority.length then
      g.highPriority.foldl (consStep env opts.maxTokens 85 fmt true)
        { st0 with content := st0.content ++ "## Key Activities & Important Conversations\n\n" }
    else st0
  let st2 := if 0 < g.mediumPriority.length ∧ 100 * st1.totalTokens < 95 * opts.maxTokens then
      g.mediumPriority.foldl (consStep env opts.maxTokens 95 fmt true)
        { st1 with content := st1.content ++ "## Regular Activities & Conversations\n\n" }
    else st1
  let st3 := if 0 < g.lowPriority.length ∧ 100 * st2.totalTokens < 98 * opts.maxTokens then
      g.lowPriority.foldl (consStep env opts.maxTokens 98 fmtSum false)
        { st2 with content := st2.content ++ "## Background Activities\n\n" }
    else st2
  st3

/-- Truncation footer of `createConsolidatedExport` (TokenOptimizer.js lines
489-491). -/
def footerStr (n : Nat) : String :=
  "\n## Summary\n\nNote: " ++ toString n
  ++ " additional entries were summarized due to token limits. "
  ++ "These included routine activities and brief interactions.\n\n"

/-- Result of `createConsolidatedExport` (TokenOptimizer.js lines
495-501). -/
structure ConsolidatedResult where
  content : String
  tokenCount : Nat
  strategy : String
  topics : List String
  originalEntries : Nat
deriving DecidableEq

/-- Embedding of `TokenOptimizer#createConsolidatedExport`
(TokenOptimizer.js lines 421-502).  `remainingEntries` is the JavaScript
`lifelogs.length - countProcessedEntries(groupedContent)`; the bands
partition the input so the estimate never exceeds the length and `Nat`
subtraction is exact. -/
def createConsolidatedExport (env : JsEnv) (lifelogs : List LifelogEntry)
    (opts : ExportOptions) : ConsolidatedResult :=
  let groupedContent := groupByTopicsAndImportance lifelogs
  let st := consolidatedBody env groupedContent opts
  let remainingEntries := lifelogs.length - countProcessedEntries groupedContent
  let content := if 95 * opts.maxTokens ≤ 100 * st.totalTokens ∧ 0 < remainingEntries
                 then st.content ++ footerStr remainingEntries
                 else st.content
  { content := content, tokenCount := st.totalTokens,
    strategy := if st.totalTokens ≤ opts.maxTokens then "consolidated" else "prioritized",
    topics := st.topics.foldl insertUnique [],
    originalEntries := lifelogs.length }

end Lifelog.TokenOptimizer

namespace Lifelog.DateUtils

/-- Gregorian leap-year predicate. -/
def isLeap (y : Int) : Bool :=
  y % 4 = 0 && (y % 100 ≠ 0 || y % 400 = 0)

/-- Length of month `m` of year `y`. -/
def daysInMonth (y : Int) (m : Nat) : Nat :=
  if m = 2 then (if isLeap y then 29 else 28)
  else if m = 4 ∨ m = 6 ∨ m = 9 ∨ m = 11 then 30 else 31

/-- Days since the Unix epoch of the civil date `y-m-d` (standard civil
calendar arithmetic; the model works in UTC, matching `new Date` on a
date-only ISO string). -/
def daysFromCivil (y : Int) (m d : Nat) : Int :=
  let y2 : Int := if m ≤ 2 then y - 1 else y
  let era : Int := (if 0 ≤ y2 then y2 else y2 - 399) / 400
  let yoe : Int := y2 - era * 400
  let mp : Int := ((m : Int) + 9) % 12
  let doy : Int := (153 * mp + 2) / 5 + (d : Int) - 1
  let doe : Int := yoe * 365 + yoe / 4 - yoe / 100 + doy
  era * 146097 + doe - 719468

/-- Civil date `(year, month, day)` of an epoch-day number, inverse of
`daysFromCivil`. -/
def civilFromDays (z : Int) : Int × Nat × Nat :=
  let z2 := z + 719468
  let era : Int := (if 0 ≤ z2 then z2 else z2 - 146096) / 146097
  let doe : Int := z2 - era * 146097
  let yoe : Int := (doe - doe / 1460 + doe / 36524 - doe / 146096) / 365
  let y : Int := yoe + era * 400
  let doy : Int := doe - (365 * yoe + yoe / 4 - yoe / 100)
  let mp : Int := (5 * doy + 2) / 153
  let d : Int := doy - (153 * mp + 2) / 5 + 1
  let m : Int := if mp < 10 then mp + 3 else mp - 9
  (if m ≤ 2 then y + 1 else y, m.toNat, d.toNat)

/-- Decimal value of a digit list. -/
def digitsToNat (l : List Char) : Nat :=
  l.foldl (fun n c => 10 * n + (c.toNat - 48)) 0

/-- Parsing of a `YYYY-MM-DD` string to an epoch-day number, modelling
`new Date(dateString)` on a date-only ISO string in UTC; `none` models an
Invalid Date (malformed shape or out-of-range components). -/
def parseISODate (s : String) : Option Int :=
  match splitCh '-' s.data with
  | [ys, ms, ds] =>
    if ys.length = 4 ∧ ms.length = 2 ∧ ds.length = 2
       ∧ (ys ++ ms ++ ds).all Char.isDigit then
      let y : Int := (digitsToNat ys : Int)
      let m := digitsToNat ms
      let d := digitsToNat ds
      if 1 ≤ m ∧ m ≤ 12 ∧ 1 ≤ d ∧ d ≤ daysInMonth y m
      then some (daysFromCivil y m d) else none
    else none
  | _ => none

/-- Zero-padding to two digits. -/
def pad2 (n : Nat) : String :=
  if n < 10 then "0" ++ toString n else toString n

/-- Zero-padding to four digits. -/
def pad4 (n : Nat) : String :=
  if n < 10 then "000" ++ toString n
  else if n < 100 then "00" ++ toString n
  else if n < 1000 then "0" ++ toString n
  else toString n

/-- Rendering of an epoch-day number as the date part of
`Date#toISOString`, i.e. `YYYY-MM-DD`. -/
def formatDay (z : Int) : String :=
  match civilFromDays z with
  | (y, m, d) => pad4 y.toNat ++ "-" ++ pad2 m ++ "-" ++ pad2 d

/-- While loop of `DateUtils#getDateRange` (DateUtils.js lines 19-22),
with explicit fuel. -/
def dateLoop : Nat → Int → Int → List Int
  | 0, _, _ => []
  | fuel + 1, cur, e => if cur ≤ e then cur :: dateLoop fuel (cur + 1) e else []

/-- Embedding of `DateUtils#getDateRange` (DateUtils.js lines 8-25).  A
start date after the end date throws (`Except.error`); when either date is
Invalid all comparisons are false, so the loop body never runs and the
empty list is returned without an error. -/
def getDateRange (startDate endDate : String) : Except String (List String) :=
  match parseISODate startDate, parseISODate endDate with
  | some a, some b =>
    if b < a then Except.error "Start date cannot be after end date"
    else Except.ok ((dateLoop ((b - a).toNat + 1) a b).map formatDay)
  | _, _ => Except.ok []

end Lifelog.DateUtils

namespace Lifelog

open Lifelog.TokenOptimizer

/-- Concrete environment used by the closed evaluations: one token per
character, identity date renderings, constant epoch. -/
def sampleEnv : JsEnv :=
  { encode := fun s => some (s.data.map Char.toNat),
    toLocaleString := id, toDateString := id, dateMs := fun _ => 0 }

/-- Single small entry whose extracted text fits any default budget. -/
def smallEntries : List LifelogEntry :=
  [{ markdown := some "hello there my good friend indeed" }]

/-- C1.  If the extracted full text is within `maxTokens`,
`optimizeForChatGPT` returns strategy `complete`, a null `chunks` field and
`tokenCount` equal to the token count of the full text. -/
theorem optimizeForChatGPT_complete_under_budget (env : JsEnv)
    (lifelogs : List LifelogEntry) (options : OptimizeOptions)
    (h : countTokens env (.str (extractAndCleanContent env lifelogs
        options.includeTimestamps options.includeSpeakers).fullText) ≤ options.maxTokens) :
    (optimizeForChatGPT env lifelogs options).strategy = "complete"
    ∧ (optimizeForChatGPT env lifelogs options).chunks = none
    ∧ (optimizeForChatGPT env lifelogs options).tokenCount
        = some (countTokens env (.str (extractAndCleanContent env lifelogs
            options.includeTimestamps options.includeSpeakers).fullText)) := by
  simp only [optimizeForChatGPT]
  rw [if_pos h]
  exact ⟨rfl, rfl, rfl⟩

/-- Closed instance of `optimizeForChatGPT_complete_under_budget` at a
concrete entry list and the default options. -/
theorem optimizeForChatGPT_complete_under_budget_witness :
    (optimizeForChatGPT sampleEnv smallEntries {}).strategy = "complete"
    ∧ (optimizeForChatGPT sampleEnv smallEntries {}).chunks = none
    ∧ (optimizeForChatGPT sampleEnv smallEntries {}).tokenCount
        = some (countTokens sampleEnv (.str (extractAndCleanContent sampleEnv smallEntries
            true true).fullText)) :=
  optimizeForChatGPT_complete_under_budget sampleEnv smallEntries {} (by decide)

/-- C2.  The extraction pipeline strips the `"[Alice]: "` speaker prefix
even though `includeSpeakers = true`: at TokenOptimizer.js line 141 the
boolean is passed in the `level` position of
`processContentBySummarizeLevel`, so `lightSummarize` receives `undefined`
(falsy) for its own `includeSpeakers` parameter.  When `lightSummarize` is
called with an actual `true` — as `formatLifelogEntry` does — the prefix
survives, isolating the defect to the call site. -/
theorem extraction_strips_prefix_despite_includeSpeakers :
    (extractAndCleanContent sampleEnv
        [{ markdown := some "[Alice]: hello there my good friend" }] true true).fullText
      = "hello there my good friend"
    ∧ lightSummarize "[Alice]: hello there my good friend" (some true)
      = "[Alice]: hello there my good friend" := by
  constructor
  · decide
  · decide

/-- C4.  The `summarizeLevel` configuration option is never read by
`optimizeForChatGPT` (its destructuring at TokenOptimizer.js lines 48-53
omits it, and the `level` argument of `processContentBySummarizeLevel` is
fed from `includeSpeakers`), so results are identical for any two values of
the option. -/
theorem optimizeForChatGPT_summarizeLevel_irrelevant (env : JsEnv)
    (lifelogs : List LifelogEntry) (o : OptimizeOptions) (lvl1 lvl2 : String) :
    optimizeForChatGPT env lifelogs { o with summarizeLevel := lvl1 }
      = optimizeForChatGPT env lifelogs { o with summarizeLevel := lvl2 } := by
  cases o
  rfl

/-- C5.  The per-band sort of `groupByTopicsAndImportance` compares the
nonexistent `timestamp` property, so it never reorders: two high-priority
entries given in descending `startTime` order come out still descending,
not ascending as the specification requires. -/
theorem groupByTopicsAndImportance_keeps_input_order :
    (groupByTopicsAndImportance
        [{ markdown := some "meeting", startTime := some "2024-01-02T10:00:00Z" },
         { markdown := some "meeting", startTime := some "2024-01-01T10:00:00Z" }]).highPriority.map
      (fun e => e.log.startTime)
    = [some "2024-01-02T10:00:00Z", some "2024-01-01T10:00:00Z"] := by
  decide

/-- C7.  `countTokens` is total and non-negative, is zero exactly on the
empty string and on non-string inputs (given that the tokenizer yields at
least one token for non-empty text, which the character fallback also
guarantees), and on tokenizer failure returns `ceil(length / 4)`. -/
theorem countTokens_zero_iff_and_fallback (env : JsEnv)
    (henc : ∀ s : String, s ≠ "" → ∀ toks, env.encode s = some toks → toks ≠ []) :
    (∀ v, 0 ≤ countTokens env v)
    ∧ (∀ v, countTokens env v = 0 ↔ v = JsInput.nonstr ∨ v = JsInput.str "")
    ∧ (∀ s : String, s ≠ "" → env.encode s = none
        → countTokens env (.str s) = (s.length + 3) / 4) := by
  refine ⟨fun v => Nat.zero_le _, fun v => ?_, fun s hs hn => ?_⟩
  · cases v with
    | nonstr => simp [countTokens]
    | str s =>
      by_cases hs : s = ""
      · subst hs; simp [countTokens]
      · simp only [countTokens, if_neg hs]
        constructor
        · intro h0
          cases henc2 : env.encode s with
          | some toks =>
            rw [henc2] at h0
            exact absurd (List.length_eq_zero.mp h0) (henc s hs toks henc2)
          | none =>
            rw [henc2] at h0
            have hlen : s.length ≠ 0 := by
              intro hz
              apply hs
              cases s with
              | mk data =>
                cases data with
                | nil => rfl
                | cons c cs => simp [String.length] at hz
            have hlt := (Nat.div_eq_zero_iff (by norm_num : (0 : Nat) < 4)).mp h0
            omega
        · rintro (h | h)
          · cases h
          · exact absurd (by injection h) hs
  · simp only [countTokens, if_neg hs, hn]

/-- Closed instance of `countTokens_zero_iff_and_fallback` at the concrete
one-token-per-character environment. -/
theorem countTokens_zero_iff_and_fallback_witness :
    (∀ v, 0 ≤ countTokens sampleEnv v)
    ∧ (∀ v, countTokens sampleEnv v = 0 ↔ v = JsInput.nonstr ∨ v = JsInput.str "")
    ∧ (∀ s : String, s ≠ "" → sampleEnv.encode s = none
        → countTokens sampleEnv (.str s) = (s.length + 3) / 4) :=
  countTokens_zero_iff_and_fallback sampleEnv (by
    intro s hs toks htoks hnil
    simp only [sampleEnv, Option.some.injEq] at htoks
    rw [hnil] at htoks
    apply hs
    cases s with
    | mk data =>
      cases data with
      | nil => rfl
      | cons c cs => simp at htoks)

end Lifelog

namespace Lifelog

open Lifelog.TokenOptimizer

/-- The line splitter never returns an empty part list. -/
theorem splitCh_ne_nil (sep : Char) (l : List Char) : splitCh sep l ≠ [] := by
  induction l with
  | nil => simp [splitCh]
  | cons c rest ih =>
    simp only [splitCh]
    split
    · simp
    · cases h : splitCh sep rest with
      | nil => simp
      | cons p ps => simp

/-- Parts produced by `splitCh` never contain the separator. -/
theorem splitCh_no_sep (sep : Char) : ∀ (l : List Char), ∀ p ∈ splitCh sep l, sep ∉ p := by
  intro l
  induction l with
  | nil =>
    intro p hp
    simp only [splitCh, List.mem_singleton] at hp
    subst hp
    simp
  | cons c rest ih =>
    intro p hp
    simp only [splitCh] at hp
    by_cases hc : c = sep
    · rw [if_pos hc] at hp
      rcases List.mem_cons.mp hp with rfl | hp2
      · simp
      · exact ih p hp2
    · rw [if_neg hc] at hp
      cases hsp : splitCh sep rest with
      | nil => exact absurd hsp (splitCh_ne_nil sep rest)
      | cons q qs =>
        rw [hsp] at hp
        rcases List.mem_cons.mp hp with rfl | hp2
        · intro hmem
          rcases List.mem_cons.mp hmem with hcc | hq
          · exact hc hcc.symm
          · exact ih q (by rw [hsp]; exact List.mem_cons_self q qs) hq
        · exact ih p (by rw [hsp]; exact List.mem_cons_of_mem q hp2)

/-- A separator-free list splits into itself. -/
theorem splitCh_single (sep : Char) : ∀ (p : List Char), sep ∉ p → splitCh sep p = [p] := by
  intro p
  induction p with
  | nil => intro h; rfl
  | cons c rest ih =>
    intro h
    have hc : ¬ c = sep := fun hcc => h (hcc ▸ List.mem_cons_self c rest)
    simp only [splitCh, if_neg hc]
    rw [ih (fun hr => h (List.mem_cons_of_mem c hr))]

/-- Splitting after a separator-free prefix peels it off. -/
theorem splitCh_append_sep (sep : Char) : ∀ (p t : List Char), sep ∉ p →
    splitCh sep (p ++ sep :: t) = p :: splitCh sep t := by
  intro p
  induction p with
  | nil => intro t h; simp [splitCh]
  | cons c rest ih =>
    intro t h
    have hc : ¬ c = sep := fun hcc => h (hcc ▸ List.mem_cons_self c rest)
    simp only [List.cons_append, splitCh, if_neg hc]
    rw [List.append_eq, ih t (fun hr => h (List.mem_cons_of_mem c hr))]

/-- `splitCh` is a left inverse of `joinCh` on nonempty lists of
separator-free parts. -/
theorem splitCh_joinCh (sep : Char) : ∀ (parts : List (List Char)), parts ≠ [] →
    (∀ p ∈ parts, sep ∉ p) → splitCh sep (joinCh sep parts) = parts
  | [], h, _ => absurd rfl h
  | [p], _, hns => by
    simp only [joinCh]
    exact splitCh_single sep p (hns p (List.mem_cons_self p []))
  | p :: q :: ps, _, hns => by
    have h1 : joinCh sep (p :: q :: ps) = p ++ sep :: joinCh sep (q :: ps) := rfl
    rw [h1, splitCh_append_sep sep p _ (hns p (List.mem_cons_self p (q :: ps))),
      splitCh_joinCh sep (q :: ps) (by simp)
        (fun r hr => hns r (List.mem_cons_of_mem p hr))]

/-- C9 counterexample.  A 15-character line whose trimmed length is exactly
15 (not under 15) is nevertheless dropped, while a 16-character line whose
trimmed length is 1 (well under 15) is kept: the source regex
`/^.{1,15}$/gm` tests the raw line length, not the trimmed length. -/
theorem lightSummarize_trimmed_rule_cex :
    lightSummarize "123456789012345" (some true) = ""
    ∧ (trimL "123456789012345".data).length = 15
    ∧ lightSummarize "a               " (some true) = "a"
    ∧ (trimL "a               ".data).length = 1 := by
  refine ⟨by decide, by decide, by decide, by decide⟩

/-- C9 amended.  `lightSummarize` first collapses blank runs, then strips
speaker prefixes when speakers are falsy; on the resulting text a line is
blanked if and only if its raw length (whitespace included) is between 1 and
15 characters, every other line surviving unchanged; finally the whole
result is trimmed. -/
theorem lightSummarize_blanks_raw_short_lines (content : String)
    (includeSpeakers : Option Bool) :
    lightSummarize content includeSpeakers
      = ⟨trimL (removeShortLines (if truthyBool includeSpeakers
            then collapseNlAux content.data
            else stripSpkAux (collapseNlAux content.data)))⟩
    ∧ ∀ mid : List Char,
        splitCh '\n' (removeShortLines mid)
          = (splitCh '\n' mid).map
              (fun line => if 1 ≤ line.length ∧ line.length ≤ 15 then [] else line) := by
  constructor
  · rfl
  · intro mid
    unfold removeShortLines
    rw [splitCh_joinCh '\n']
    · intro hmap
      exact splitCh_ne_nil '\n' mid (List.map_eq_nil_iff.mp hmap)
    · intro p hp
      rcases List.mem_map.mp hp with ⟨line, hline, rfl⟩
      split
      · simp
      · exact splitCh_no_sep '\n' mid line hline

end Lifelog

namespace Lifelog

/-- Decidable equality for `Except`, so the concrete date-range runs can be
checked by `decide`. -/
instance {e a : Type} [DecidableEq e] [DecidableEq a] : DecidableEq (Except e a)
  | .error x, .error y =>
    decidable_of_iff (x = y) ⟨by rintro rfl; rfl, fun h => by injection h⟩
  | .error _, .ok _ => isFalse (fun h => Except.noConfusion h)
  | .ok _, .error _ => isFalse (fun h => Except.noConfusion h)
  | .ok x, .ok y =>
    decidable_of_iff (x = y) ⟨by rintro rfl; rfl, fun h => by injection h⟩

/-- The while loop returns nothing once the cursor is past the end. -/
theorem dateLoop_gt (fuel : Nat) (a b : Int) (h : b < a) :
    DateUtils.dateLoop fuel a b = [] := by
  cases fuel with
  | zero => rfl
  | succ n => simp [DateUtils.dateLoop, not_le.mpr h]

/-- With sufficient fuel the while loop enumerates exactly the closed
interval from `a` to `b`. -/
theorem dateLoop_eq (fuel : Nat) : ∀ (a b : Int), a ≤ b → (b - a).toNat < fuel →
    DateUtils.dateLoop fuel a b
      = (List.range ((b - a).toNat + 1)).map (fun i : Nat => a + (i : Int)) := by
  induction fuel with
  | zero => intro a b hab h; exact absurd h (Nat.not_lt_zero _)
  | succ n ih =>
    intro a b hab hfuel
    simp only [DateUtils.dateLoop, if_pos hab]
    by_cases hab2 : a = b
    · subst hab2
      rw [dateLoop_gt n _ _ (by omega)]
      have hz : (a - a).toNat = 0 := by omega
      rw [hz]
      simp [List.range_succ]
    · have hlt : a < b := lt_of_le_of_ne hab hab2
      rw [ih (a + 1) b (by omega) (by omega)]
      have h1 : (b - a).toNat + 1 = ((b - (a + 1)).toNat + 1) + 1 := by omega
      conv_rhs => rw [h1, List.range_succ_eq_map]
      simp only [List.map_cons, List.map_map, Nat.cast_zero, add_zero]
      congr 1
      apply List.map_congr_left
      intro i _
      simp only [Function.comp_apply]
      push_cast
      ring

/-- C10.  `DateUtils#getDateRange` enumerates every calendar day from start
to end inclusive, in order (witnessed concretely on the spec's example), and
reports `start > end` as an error. -/
theorem getDateRange_enumerates_and_rejects :
    (∀ (s e : String) (a b : Int),
      DateUtils.parseISODate s = some a → DateUtils.parseISODate e = some b →
      (b < a → DateUtils.getDateRange s e
          = Except.error "Start date cannot be after end date")
      ∧ (a ≤ b → DateUtils.getDateRange s e
          = Except.ok (((List.range ((b - a).toNat + 1)).map
              (fun i : Nat => a + (i : Int))).map DateUtils.formatDay)))
    ∧ DateUtils.getDateRange "2024-01-01" "2024-01-03"
        = Except.ok ["2024-01-01", "2024-01-02", "2024-01-03"] := by
  constructor
  · intro s e a b hs he
    constructor
    · intro hba
      simp only [DateUtils.getDateRange, hs, he, if_pos hba]
    · intro hab
      simp only [DateUtils.getDateRange, hs, he, if_neg (not_lt.mpr hab)]
      rw [dateLoop_eq ((b - a).toNat + 1) a b hab (by omega)]
  · decide

/-- Closed instance of `getDateRange_enumerates_and_rejects` on a reversed
range, discharging the parse hypotheses at concrete epoch-day values. -/
theorem getDateRange_enumerates_and_rejects_witness :
    DateUtils.getDateRange "2024-01-05" "2024-01-03"
      = Except.error "Start date cannot be after end date" :=
  (getDateRange_enumerates_and_rejects.1 "2024-01-05" "2024-01-03" 19727 19725
    (by decide) (by decide)).1 (by decide)

end Lifelog

namespace Lifelog.TokenOptimizer

/-- Index invariant of the packing loops: the emitted chunks carry the
indices `0, 1, …` in order and the running counter equals their number. -/
def IndexInv (s : PackSt) : Prop :=
  s.chunks.map (·.index) = List.range s.chunks.length ∧ s.idx = s.chunks.length

/-- Appending one chunk carrying the next index preserves contiguity. -/
theorem map_index_append (cs : List Chunk) (c : Chunk)
    (h : cs.map (·.index) = List.range cs.length) (hc : c.index = cs.length) :
    (cs ++ [c]).map (·.index) = List.range (cs ++ [c]).length := by
  rw [List.map_append, h, List.length_append]
  simp [hc, List.range_succ]

/-- One fixed-chunking step preserves the index invariant. -/
theorem fixedStep_inv (env : JsEnv) (cs : Nat) (s : PackSt) (x : String)
    (h : IndexInv s) : IndexInv (fixedStep env cs s x) := by
  simp only [fixedStep]
  set t := s.current ++ (if s.current ≠ "" then " " else "") ++ x with ht
  split
  · exact h
  · split
    · refine ⟨map_index_append s.chunks _ h.1 h.2, ?_⟩
      simp [h.2]
    · exact h

/-- The fixed-chunking loop preserves the index invariant. -/
theorem foldl_fixedStep_inv (env : JsEnv) (cs : Nat) :
    ∀ (l : List String) (s : PackSt), IndexInv s → IndexInv (l.foldl (fixedStep env cs) s)
  | [], _, h => h
  | x :: xs, s, h => foldl_fixedStep_inv env cs xs _ (fixedStep_inv env cs s x h)

/-- The final flush preserves the index invariant of the chunk list. -/
theorem finishChunks_inv (st : PackSt) (mk : PackSt → Chunk) (h : IndexInv st)
    (hmk : (mk st).index = st.idx) :
    (finishChunks st mk).map (·.index) = List.range (finishChunks st mk).length := by
  unfold finishChunks
  split
  · exact map_index_append st.chunks _ h.1 (hmk.trans h.2)
  · exact h.1

/-- The JavaScript reduce is the sum of the token counts. -/
theorem foldl_add_eq_sum : ∀ (l : List Nat) (a : Nat), l.foldl (· + ·) a = a + l.sum
  | [], a => by simp
  | x :: xs, a => by
    simp only [List.foldl_cons, List.sum_cons, foldl_add_eq_sum xs]
    ring

/-- `sumTokens` agrees with `List.sum` over the token counts. -/
theorem sumTokens_eq (cs : List Chunk) : sumTokens cs = (cs.map (·.tokenCount)).sum := by
  unfold sumTokens
  rw [foldl_add_eq_sum]
  simp

/-- The total reported by `fixedChunking` is the sum of its chunks' token
counts, and its chunk indices are `0, 1, …` in order. -/
theorem fixedChunking_spec (env : JsEnv) (t : String) (mt : Nat) :
    (fixedChunking env t mt).totalTokens
        = ((fixedChunking env t mt).chunks.map (·.tokenCount)).sum
    ∧ (fixedChunking env t mt).chunks.map (·.index)
        = List.range (fixedChunking env t mt).chunks.length := by
  constructor
  · exact sumTokens_eq _
  · simp only [fixedChunking]
    apply finishChunks_inv
    · exact foldl_fixedStep_inv env (90 * mt / 100)
        ((splitSentWsAux t.data []).map (fun l => (⟨l⟩ : String))) ⟨[], "", 0⟩
        ⟨by simp, rfl⟩
    · rfl

/-- One sub-chunk push preserves the index invariant. -/
theorem subStep_inv (s : PackSt) (c : Chunk) (h : IndexInv s) : IndexInv (subStep s c) := by
  refine ⟨map_index_append s.chunks _ h.1 h.2, ?_⟩
  simp [subStep, h.2]

/-- The sub-chunk loop preserves the index invariant. -/
theorem foldl_subStep_inv : ∀ (l : List Chunk) (s : PackSt), IndexInv s →
    IndexInv (l.foldl subStep s)
  | [], _, h => h
  | x :: xs, s, h => foldl_subStep_inv xs _ (subStep_inv s x h)

/-- One semantic-chunking step preserves the index invariant. -/
theorem semStep_inv (env : JsEnv) (cs mt : Nat) (s : PackSt) (x : String)
    (h : IndexInv s) : IndexInv (semStep env cs mt s x) := by
  simp only [semStep]
  set t := s.current ++ (if s.current ≠ "" then "\n\n" else "") ++ x with ht
  have h1 : IndexInv (if s.current ≠ "" then
      ({ chunks := s.chunks ++ [{ index := s.idx, content := jsTrim s.current,
                                  tokenCount := countTokens env (.str s.current),
                                  type := "semantic",
                                  topics := some (extractTopicsFromText s.current) }],
         current := s.current, idx := s.idx + 1 } : PackSt)
    else s) := by
    split
    · refine ⟨map_index_append s.chunks _ h.1 h.2, ?_⟩
      simp [h.2]
    · exact h
  split
  · exact h
  · by_cases hbig : cs < countTokens env (.str x)
    · rw [if_pos hbig]
      exact foldl_subStep_inv _ _ h1
    · rw [if_neg hbig]
      exact h1

/-- The semantic-chunking loop preserves the index invariant. -/
theorem foldl_semStep_inv (env : JsEnv) (cs mt : Nat) :
    ∀ (l : List String) (s : PackSt), IndexInv s → IndexInv (l.foldl (semStep env cs mt) s)
  | [], _, h => h
  | x :: xs, s, h => foldl_semStep_inv env cs mt xs _ (semStep_inv env cs mt s x h)

/-- The total reported by `semanticChunking` is the sum of its chunks' token
counts, and its chunk indices are `0, 1, …` in order (across whole-section
chunks and `semantic-split` sub-chunks alike). -/
theorem semanticChunking_spec (env : JsEnv) (t : String) (mt : Nat) :
    (semanticChunking env t mt).totalTokens
        = ((semanticChunking env t mt).chunks.map (·.tokenCount)).sum
    ∧ (semanticChunking env t mt).chunks.map (·.index)
        = List.range (semanticChunking env t mt).chunks.length := by
  constructor
  · exact sumTokens_eq _
  · simp only [semanticChunking]
    apply finishChunks_inv
    · exact foldl_semStep_inv env (90 * mt / 100) mt
        ((splitSectionsAux t.data []).map (fun l => (⟨l⟩ : String))) ⟨[], "", 0⟩
        ⟨by simp, rfl⟩
    · rfl

end Lifelog.TokenOptimizer

namespace Lifelog

open Lifelog.TokenOptimizer

/-- C3.  Whenever the extracted text exceeds the budget, the chunked result
of `optimizeForChatGPT` — under any configured strategy string — reports an
`optimizedTokens` equal to the sum of the chunks' `tokenCount` fields, and
the chunks carry the contiguous indices `0, 1, …` in list (source document)
order. -/
theorem optimizeForChatGPT_chunk_sum_and_indices (env : JsEnv)
    (lifelogs : List LifelogEntry) (options : OptimizeOptions)
    (h : options.maxTokens < countTokens env (.str (extractAndCleanContent env lifelogs
        options.includeTimestamps options.includeSpeakers).fullText)) :
    ∃ cs, (optimizeForChatGPT env lifelogs options).chunks = some cs
      ∧ (optimizeForChatGPT env lifelogs options).optimizedTokens
          = some ((cs.map (·.tokenCount)).sum)
      ∧ cs.map (·.index) = List.range cs.length := by
  simp only [optimizeForChatGPT]
  rw [if_neg (Nat.not_le.mpr h)]
  split
  · exact ⟨(semanticChunking env (extractAndCleanContent env lifelogs
        options.includeTimestamps options.includeSpeakers).fullText options.maxTokens).chunks,
      rfl,
      congrArg some (semanticChunking_spec env _ options.maxTokens).1,
      (semanticChunking_spec env _ options.maxTokens).2⟩
  · exact ⟨(temporalChunking env (extractAndCleanContent env lifelogs
        options.includeTimestamps options.includeSpeakers).fullText options.maxTokens).chunks,
      rfl,
      congrArg some (semanticChunking_spec env _ options.maxTokens).1,
      (semanticChunking_spec env _ options.maxTokens).2⟩
  · exact ⟨(fixedChunking env (extractAndCleanContent env lifelogs
        options.includeTimestamps options.includeSpeakers).fullText options.maxTokens).chunks,
      rfl,
      congrArg some (fixedChunking_spec env _ options.maxTokens).1,
      (fixedChunking_spec env _ options.maxTokens).2⟩

/-- Closed instance of `optimizeForChatGPT_chunk_sum_and_indices` on an
over-budget input with the default (semantic) strategy. -/
theorem optimizeForChatGPT_chunk_sum_and_indices_witness :
    ∃ cs, (optimizeForChatGPT sampleEnv smallEntries { maxTokens := 10 }).chunks = some cs
      ∧ (optimizeForChatGPT sampleEnv smallEntries { maxTokens := 10 }).optimizedTokens
          = some ((cs.map (·.tokenCount)).sum)
      ∧ cs.map (·.index) = List.range cs.length :=
  optimizeForChatGPT_chunk_sum_and_indices sampleEnv smallEntries { maxTokens := 10 } (by decide)

end Lifelog

namespace Lifelog.TokenOptimizer

/-- One consolidation-loop iteration keeps the running total within the
band's percentage ceiling. -/
theorem consStep_bound (env : JsEnv) (mt pct : Nat) (fmt : FormatOptions) (ct : Bool)
    (s : ConsSt) (item : EnrichedLifelog) (h : 100 * s.totalTokens ≤ pct * mt) :
    100 * (consStep env mt pct fmt ct s item).totalTokens ≤ pct * mt := by
  simp only [consStep]
  split
  · rename_i hc
    exact hc
  · exact h

/-- A whole consolidation loop keeps the running total within the band's
percentage ceiling. -/
theorem foldl_consStep_bound (env : JsEnv) (mt pct : Nat) (fmt : FormatOptions) (ct : Bool) :
    ∀ (l : List EnrichedLifelog) (s : ConsSt), 100 * s.totalTokens ≤ pct * mt →
      100 * (l.foldl (consStep env mt pct fmt ct) s).totalTokens ≤ pct * mt
  | [], _, h => h
  | x :: xs, s, h =>
    foldl_consStep_bound env mt pct fmt ct xs _ (consStep_bound env mt pct fmt ct s x h)

/-- A guarded consolidation phase (optional heading plus loop) keeps the
running total within its ceiling; the heading changes only the content. -/
theorem phase_bound (env : JsEnv) (mt pct : Nat) (fmt : FormatOptions) (ct : Bool)
    (items : List EnrichedLifelog) (heading : String) (cond : Prop) [Decidable cond]
    (st : ConsSt) (h : 100 * st.totalTokens ≤ pct * mt) :
    100 * (if cond then items.foldl (consStep env mt pct fmt ct)
        { st with content := st.content ++ heading } else st).totalTokens ≤ pct * mt := by
  split
  · exact foldl_consStep_bound env mt pct fmt ct items _ h
  · exact h

/-- The consolidated body never exceeds 98% of the budget: each phase's gate
admits an entry only while the running total stays under its ceiling, and
the ceilings grow from 85% through 95% to 98%. -/
theorem consolidatedBody_bound (env : JsEnv) (g : GroupedContent) (opts : ExportOptions) :
    100 * (consolidatedBody env g opts).totalTokens ≤ 98 * opts.maxTokens := by
  simp only [consolidatedBody]
  apply phase_bound
  refine le_trans ?_ (Nat.mul_le_mul_right opts.maxTokens (by norm_num : 95 ≤ 98))
  apply phase_bound
  refine le_trans ?_ (Nat.mul_le_mul_right opts.maxTokens (by norm_num : 85 ≤ 95))
  apply phase_bound
  simp

/-- C8.  For any positive budget, `createConsolidatedExport` reports a
`tokenCount` of at most 98% of `maxTokens` (only included entries are
counted — headings and the footer are excluded from the total), so the
`strategy` field is always `consolidated` and `prioritized` is dead code. -/
theorem createConsolidatedExport_token_bound (env : JsEnv) (lifelogs : List LifelogEntry)
    (opts : ExportOptions) (h : 0 < opts.maxTokens) :
    100 * (createConsolidatedExport env lifelogs opts).tokenCount ≤ 98 * opts.maxTokens
    ∧ (createConsolidatedExport env lifelogs opts).strategy = "consolidated" := by
  have hb := consolidatedBody_bound env (groupByTopicsAndImportance lifelogs) opts
  constructor
  · exact hb
  · have hle : (consolidatedBody env (groupByTopicsAndImportance lifelogs) opts).totalTokens
        ≤ opts.maxTokens := by omega
    simp only [createConsolidatedExport]
    rw [if_pos hle]

/-- Closed instance of `createConsolidatedExport_token_bound` at the default
export options. -/
theorem createConsolidatedExport_token_bound_witness :
    100 * (createConsolidatedExport Lifelog.sampleEnv Lifelog.smallEntries
        ({} : ExportOptions)).tokenCount ≤ 98 * 120000
    ∧ (createConsolidatedExport Lifelog.sampleEnv Lifelog.smallEntries
        ({} : ExportOptions)).strategy = "consolidated" :=
  createConsolidatedExport_token_bound Lifelog.sampleEnv Lifelog.smallEntries {} (by decide)

end Lifelog.TokenOptimizer

namespace Lifelog.TokenOptimizer

/-- Declarative characterization of the bands: the classification fold
appends each entry, in order, to the band selected by its priority. -/
theorem groupFold_bands : ∀ (ls : List LifelogEntry) (g : GroupedContent),
    (ls.foldl groupStep g).highPriority
        = g.highPriority ++ (ls.filter (fun l => (classifyEntry l).priority == "high")).map classifyEntry
    ∧ (ls.foldl groupStep g).mediumPriority
        = g.mediumPriority ++ (ls.filter (fun l => (classifyEntry l).priority == "medium")).map classifyEntry
    ∧ (ls.foldl groupStep g).lowPriority
        = g.lowPriority ++ (ls.filter (fun l => !((classifyEntry l).priority == "high")
            && !((classifyEntry l).priority == "medium"))).map classifyEntry := by
  intro ls
  induction ls with
  | nil => intro g; simp
  | cons x xs ih =>
    intro g
    simp only [List.foldl_cons]
    by_cases h1 : (classifyEntry x).priority = "high"
    · have hg : groupStep g x = { g with highPriority := g.highPriority ++ [classifyEntry x] } := by
        simp [groupStep, h1]
      rw [hg]
      obtain ⟨ih1, ih2, ih3⟩ := ih { g with highPriority := g.highPriority ++ [classifyEntry x] }
      refine ⟨?_, ?_, ?_⟩
      · rw [ih1]; simp [List.filter_cons, h1]
      · rw [ih2]; simp [List.filter_cons, h1]
      · rw [ih3]; simp [List.filter_cons, h1]
    · by_cases h2 : (classifyEntry x).priority = "medium"
      · have hg : groupStep g x
            = { g with mediumPriority := g.mediumPriority ++ [classifyEntry x] } := by
          simp [groupStep, h1, h2]
        rw [hg]
        obtain ⟨ih1, ih2, ih3⟩ := ih { g with mediumPriority := g.mediumPriority ++ [classifyEntry x] }
        refine ⟨?_, ?_, ?_⟩
        · rw [ih1]; simp [List.filter_cons, h1, h2]
        · rw [ih2]; simp [List.filter_cons, h1, h2]
        · rw [ih3]; simp [List.filter_cons, h1, h2]
      · have hg : groupStep g x
            = { g with lowPriority := g.lowPriority ++ [classifyEntry x] } := by
          simp [groupStep, h1, h2]
        rw [hg]
        obtain ⟨ih1, ih2, ih3⟩ := ih { g with lowPriority := g.lowPriority ++ [classifyEntry x] }
        refine ⟨?_, ?_, ?_⟩
        · rw [ih1]; simp [List.filter_cons, h1, h2]
        · rw [ih2]; simp [List.filter_cons, h1, h2]
        · rw [ih3]; simp [List.filter_cons, h1, h2]

/-- Filter-based characterization of the code's omitted-entry estimate
(what the truncation footer actually reports): the input size minus
`|high| + floor(0.8 |medium|) + floor(0.3 |low|)` over the full band sizes —
not a count of entries that were actually left out. -/
def omittedEstimate (lifelogs : List LifelogEntry) : Nat :=
  lifelogs.length
    - ((lifelogs.filter (fun l => (classifyEntry l).priority == "high")).length
       + 8 * (lifelogs.filter (fun l => (classifyEntry l).priority == "medium")).length / 10
       + 3 * (lifelogs.filter (fun l => !((classifyEntry l).priority == "high")
           && !((classifyEntry l).priority == "medium"))).length / 10)

/-- The code's processed-entry estimate equals its filter-based form. -/
theorem countProcessed_eq (lifelogs : List LifelogEntry) :
    lifelogs.length - countProcessedEntries (groupByTopicsAndImportance lifelogs)
      = omittedEstimate lifelogs := by
  obtain ⟨h1, h2, h3⟩ := groupFold_bands lifelogs ⟨[], [], []⟩
  simp only [groupByTopicsAndImportance, sortByTime, countProcessedEntries, omittedEstimate]
  rw [h1, h2, h3]
  simp [List.length_map]

/-- String append with the empty string on the right is the identity. -/
theorem strAppendEmpty (s : String) : s ++ "" = s := by
  cases s with
  | mk data =>
    show String.mk (data ++ []) = String.mk data
    rw [List.append_nil]

/-- C6 amended.  The truncation footer is appended exactly when the final
running total reaches 95% of `maxTokens` and the estimate
`|entries| - (|high| + floor(0.8 |medium|) + floor(0.3 |low|))` over the
full band sizes is positive, and the footer reports that estimate — it is
not a count of the entries actually omitted, and a document that omitted
entries can lack the footer entirely. -/
theorem createConsolidatedExport_footer_rule (env : JsEnv) (lifelogs : List LifelogEntry)
    (opts : ExportOptions) :
    (createConsolidatedExport env lifelogs opts).content
      = (consolidatedBody env (groupByTopicsAndImportance lifelogs) opts).content
        ++ (if 95 * opts.maxTokens
              ≤ 100 * (consolidatedBody env (groupByTopicsAndImportance lifelogs) opts).totalTokens
             ∧ 0 < omittedEstimate lifelogs
            then footerStr (omittedEstimate lifelogs) else "") := by
  simp only [createConsolidatedExport]
  rw [countProcessed_eq]
  split
  · rfl
  · rw [strAppendEmpty]

end Lifelog.TokenOptimizer

namespace Lifelog

open Lifelog.TokenOptimizer

/-- Two high-priority entries of 15 and 16 tokens against a budget of 20. -/
def c6Entries : List LifelogEntry :=
  [{ markdown := some "meeting meeting" }, { markdown := some "meeting everyone" }]

/-- C6 counterexample.  With `maxTokens = 20` the first high-priority entry
(15 tokens) is included, the second is dropped by the 85% ceiling, yet the
output carries no footer at all: the running total (15) never reaches 95% of
the budget (19), so a truncated document reports nothing. -/
theorem createConsolidatedExport_omits_without_footer :
    (createConsolidatedExport sampleEnv c6Entries { maxTokens := 20 }).content
        = "## Key Activities & Important Conversations\n\nmeeting meeting\n\n"
    ∧ (createConsolidatedExport sampleEnv c6Entries { maxTokens := 20 }).originalEntries = 2
    ∧ strIncludes (createConsolidatedExport sampleEnv c6Entries
        { maxTokens := 20 }).content "meeting everyone" = false
    ∧ strIncludes (createConsolidatedExport sampleEnv c6Entries
        { maxTokens := 20 }).content "## Summary" = false := by
  refine ⟨by decide, by decide, by decide, by decide⟩

end Lifelog
